import Mathlib

/-!
# examples/boomer/http_get.go

A shallow embedding of the three functions of the file (`now`, `test_http`,
`main`) as computations over an explicit execution state, and the properties
of the published events, the deferred body release and the clock arithmetic.

The collaborators the file calls into (`time.Now`, `http.Get`,
`boomer.Events.Publish`, `boomer.Run`, `Body.Close`) are outside the file.
Their results are inputs (`World`); their invocations are recorded, in order,
in the trace of the execution state.
-/

namespace HttpGet

/-! ## Values and collaborators -/

/-- Dynamically typed argument of the variadic `Publish` call.  A `float64`
is carried by the number it denotes: every `float64` the file builds is the
constant `0.0` or the conversion of an `int64`, hence an integer. -/
inductive Value where
  | str (s : String)
  | float64 (v : Int)
  | int64 (n : Int)
  deriving DecidableEq, Repr

/-- Go `error` value that is not nil; `Error()` returns `msg`. -/
structure GoError where
  msg : String
  deriving DecidableEq, Repr

/-- Method `Error()` of a non-nil error. -/
def GoError.Error (e : GoError) : String := e.msg

/-- The fields of `*http.Response` the file touches, plus the status code.
`Body` is the handle of the closable body; net/http never leaves it nil in a
response it returns. -/
structure Response where
  StatusCode : Int
  ContentLength : Int
  Body : Nat
  deriving DecidableEq, Repr

/-- Top-level functions of the file that are used as function values. -/
inductive FuncVal where
  | test_http
  deriving DecidableEq, Repr

/-- Type `boomer.Task`, of which the file sets the field `Fn`. -/
structure Task where
  Fn : FuncVal
  deriving DecidableEq, Repr

/-- A call saved by a `defer` statement: receiver already evaluated. -/
inductive Deferred where
  | bodyClose (body : Nat)
  deriving DecidableEq, Repr

/-- One step visible outside the function, in execution order. -/
inductive Effect where
  | timeNow
  | httpGet (url : String)
  | deferScheduled (call : Deferred)
  | publish (args : List Value)
  | bodyClose (body : Nat)
  | boomerRun (task : Task)
  deriving DecidableEq, Repr

/-- What the environment answers: the successive readings of
`time.Now().UnixNano()` and the result pair of `http.Get`. A nil pointer and
a nil error are `none`. -/
structure World where
  clock : Nat → Int
  get : String → Option Response × Option GoError

/-- Execution state: number of clock readings consumed, the effects so far,
and the deferred calls of the running function, last registered first. -/
structure State where
  reads : Nat
  trace : List Effect
  defers : List Deferred
  deriving DecidableEq, Repr

/-- How a computation ends: a value, or a run-time panic. -/
inductive Outcome (α : Type) where
  | ok (a : α)
  | panic (msg : String)
  deriving DecidableEq, Repr

/-- Computations of the embedding. The state survives a panic. -/
def GoM (α : Type) : Type := World → State → Outcome α × State

/-- Sequencing: a panic skips the rest. -/
def GoM.bind {α β : Type} (m : GoM α) (f : α → GoM β) : GoM β :=
  fun w s =>
    match m w s with
    | (Outcome.ok a, s1) => f a w s1
    | (Outcome.panic msg, s1) => (Outcome.panic msg, s1)

instance : Monad GoM where
  pure a := fun _ s => (Outcome.ok a, s)
  bind := GoM.bind

/-- Append an effect to the trace. -/
def emit (e : Effect) : GoM Unit :=
  fun _ s => (Outcome.ok (), { s with trace := s.trace ++ [e] })

/-! ## Machine arithmetic -/

/-- Two's-complement wrap of an integer into the `int64` range. -/
def wrapInt64 (x : Int) : Int :=
  (x + 2 ^ 63) % 2 ^ 64 - 2 ^ 63

/-- Range of an `int64`. -/
def isInt64 (x : Int) : Prop := -(2 ^ 63) ≤ x ∧ x < 2 ^ 63

instance (x : Int) : Decidable (isInt64 x) := by
  unfold isInt64; exact inferInstance

/-- The number denoted by `float64(x)` for an integer `x`: `x` itself while it
fits the 53-bit significand, else `x` rounded to 53 significant bits, ties to
even. -/
def float64OfInt (x : Int) : Int :=
  let a := x.natAbs
  if a < 2 ^ 53 then x
  else
    let e := Nat.log2 a - 52
    let q := a / 2 ^ e
    let r := a % 2 ^ e
    let half := 2 ^ (e - 1)
    let q1 := if half < r ∨ (r = half ∧ q % 2 = 1) then q + 1 else q
    if x < 0 then -((q1 * 2 ^ e : Nat) : Int) else ((q1 * 2 ^ e : Nat) : Int)

/-- Constant `time.Millisecond` of the Go standard library: a `Duration`
counts nanoseconds. -/
def time_Millisecond : Int := 1000000

/-! ## Primitive steps -/

/-- Call `time.Now().UnixNano()`: the next reading of the clock. -/
def time_Now_UnixNano : GoM Int :=
  fun w s =>
    (Outcome.ok (w.clock s.reads),
     { s with reads := s.reads + 1, trace := s.trace ++ [Effect.timeNow] })

/-- Call `http.Get(url)`. -/
def http_Get (url : String) : GoM (Option Response × Option GoError) :=
  fun w s => (Outcome.ok (w.get url), { s with trace := s.trace ++ [Effect.httpGet url] })

/-- Dereference of a `*http.Response`: a nil pointer panics. -/
def deref (resp : Option Response) : GoM Response :=
  fun _ s =>
    match resp with
    | some r => (Outcome.ok r, s)
    | none => (Outcome.panic "runtime error: invalid memory address or nil pointer dereference", s)

/-- Statement `defer call`: the call is saved, not run. -/
def defer (call : Deferred) : GoM Unit :=
  fun _ s =>
    (Outcome.ok (),
     { s with trace := s.trace ++ [Effect.deferScheduled call], defers := call :: s.defers })

/-- Run one saved call. -/
def Deferred.run : Deferred → GoM Unit
  | Deferred.bodyClose b => emit (Effect.bodyClose b)

/-- Run saved calls, last registered first. -/
def runDefers : List Deferred → GoM Unit
  | [] => pure ()
  | d :: ds => do
    d.run
    runDefers ds

/-- A function call: the body runs with its own, empty list of deferred
calls; when it returns or panics the saved calls run, then the caller's list
is back and a panic goes on to the caller. -/
def funcCall {α : Type} (body : GoM α) : GoM α :=
  fun w s =>
    match body w { s with defers := [] } with
    | (out, s1) =>
      match runDefers s1.defers w { s1 with defers := [] } with
      | (Outcome.ok (), s2) => (out, { s2 with defers := s.defers })
      | (Outcome.panic msg, s2) => (Outcome.panic msg, { s2 with defers := s.defers })

/-- Call `boomer.Events.Publish(args...)`. -/
def boomer_Events_Publish (args : List Value) : GoM Unit :=
  emit (Effect.publish args)

/-- Call `boomer.Run(task)`. -/
def boomer_Run (task : Task) : GoM Unit :=
  emit (Effect.boomerRun task)

/-! ## The functions of the file -/

/-- Function `now`: `time.Now().UnixNano() / int64(time.Millisecond)`; `/` on
`int64` truncates toward zero, and dividing by a positive constant cannot
overflow. -/
def now : GoM Int := funcCall do
  let n ← time_Now_UnixNano
  pure (Int.tdiv n time_Millisecond)

/-- Function `test_http`. -/
def test_http : GoM Unit := funcCall do
  let startTime ← now
  let (resp, err) ← http_Get "http://localhost:8080/"
  -- defer resp.Body.Close(): the receiver resp.Body is evaluated here
  let body := (← deref resp).Body
  defer (Deferred.bodyClose body)
  let endTime ← now
  match err with
  | some e =>
    boomer_Events_Publish
      [Value.str "request_failure", Value.str "demo", Value.str "http",
       Value.float64 0, Value.str e.Error]
  | none =>
    boomer_Events_Publish
      [Value.str "request_success", Value.str "demo", Value.str "http",
       Value.float64 (float64OfInt (wrapInt64 (endTime - startTime))),
       Value.int64 (← deref resp).ContentLength]

/-- The function a function value denotes. -/
def FuncVal.call : FuncVal → GoM Unit
  | FuncVal.test_http => HttpGet.test_http

/-- Function `main`. -/
def main : GoM Unit := funcCall do
  let task : Task := { Fn := FuncVal.test_http }
  boomer_Run task

/-! ## Observations -/

/-- State in which a function is entered from outside: nothing read, nothing
done, nothing deferred. -/
def State.init : State := { reads := 0, trace := [], defers := [] }

/-- Run a computation from the initial state. -/
def run {α : Type} (m : GoM α) (w : World) : Outcome α × State := m w State.init

/-- The argument lists of the `Publish` calls of a trace, in order. -/
def published : List Effect → List (List Value)
  | [] => []
  | Effect.publish args :: es => args :: published es
  | _ :: es => published es

/-- The handles closed in a trace, in order. -/
def closed : List Effect → List Nat
  | [] => []
  | Effect.bodyClose b :: es => b :: closed es
  | _ :: es => closed es

/-- World with two clock readings and a fixed answer of `http.Get`. -/
def mkWorld (n0 n1 : Int) (resp : Option Response) (err : Option GoError) : World where
  clock := fun k => if k = 0 then n0 else n1
  get := fun _ => (resp, err)

/-- The effects a computation adds to the trace of the state it starts in. -/
def effectsOf {α : Type} (m : GoM α) (w : World) (s : State) : List Effect :=
  (m w s).2.trace.drop s.trace.length

/-- How a computation started in `s` ends. -/
def outcomeOf {α : Type} (m : GoM α) (w : World) (s : State) : Outcome α :=
  (m w s).1

/-- The value `now` returns when the clock's reading number `k` is the one it
consumes. -/
def msReading (w : World) (k : Nat) : Int :=
  Int.tdiv (w.clock k) time_Millisecond

/-- Fourth argument of a `Publish` call when it is a `float64`. -/
def measurement (args : List Value) : Option Int :=
  match args.get? 3 with
  | some (Value.float64 v) => some v
  | _ => none

/-- The address the file requests. -/
def targetURL : String := "http://localhost:8080/"

/-! ## Execution lemmas -/

theorem now_run (w : World) (s : State) :
    now w s = (Outcome.ok (msReading w s.reads),
      { s with reads := s.reads + 1, trace := s.trace ++ [Effect.timeNow] }) := by
  rfl

theorem test_http_run_resp (w : World) (s : State) (r : Response) (err : Option GoError)
    (hget : w.get targetURL = (some r, err)) :
    test_http w s =
      (Outcome.ok (),
       { reads := s.reads + 2,
         trace := s.trace ++
           [Effect.timeNow, Effect.httpGet targetURL,
            Effect.deferScheduled (Deferred.bodyClose r.Body), Effect.timeNow,
            Effect.publish
              (match err with
               | some e =>
                 [Value.str "request_failure", Value.str "demo", Value.str "http",
                  Value.float64 0, Value.str e.Error]
               | none =>
                 [Value.str "request_success", Value.str "demo", Value.str "http",
                  Value.float64 (float64OfInt (wrapInt64
                    (msReading w (s.reads + 1) - msReading w s.reads))),
                  Value.int64 r.ContentLength]),
            Effect.bodyClose r.Body],
         defers := s.defers }) := by
  have h : w.get "http://localhost:8080/" = (some r, err) := hget
  cases err <;>
    simp [test_http, funcCall, bind, GoM.bind, now_run, http_Get, h, deref, defer,
      boomer_Events_Publish, emit, runDefers, Deferred.run, pure, targetURL]

theorem test_http_run_nil (w : World) (s : State) (err : Option GoError)
    (hget : w.get targetURL = (none, err)) :
    test_http w s =
      (Outcome.panic "runtime error: invalid memory address or nil pointer dereference",
       { reads := s.reads + 1,
         trace := s.trace ++ [Effect.timeNow, Effect.httpGet targetURL],
         defers := s.defers }) := by
  have h : w.get "http://localhost:8080/" = (none, err) := hget
  simp [test_http, funcCall, bind, GoM.bind, now_run, http_Get, h, deref,
    runDefers, pure, targetURL]

theorem main_run (w : World) (s : State) :
    main w s =
      (Outcome.ok (),
       { s with trace := s.trace ++ [Effect.boomerRun { Fn := FuncVal.test_http }] }) := by
  rfl

theorem effectsOf_append {α : Type} (m : GoM α) (w : World) (s : State) (out : Outcome α)
    (k : Nat) (es : List Effect) (ds : List Deferred)
    (h : m w s = (out, { reads := k, trace := s.trace ++ es, defers := ds })) :
    effectsOf m w s = es := by
  simp [effectsOf, h]

theorem effectsOf_test_http_resp (w : World) (s : State) (r : Response)
    (err : Option GoError) (hget : w.get targetURL = (some r, err)) :
    effectsOf test_http w s =
      [Effect.timeNow, Effect.httpGet targetURL,
       Effect.deferScheduled (Deferred.bodyClose r.Body), Effect.timeNow,
       Effect.publish
         (match err with
          | some e =>
            [Value.str "request_failure", Value.str "demo", Value.str "http",
             Value.float64 0, Value.str e.Error]
          | none =>
            [Value.str "request_success", Value.str "demo", Value.str "http",
             Value.float64 (float64OfInt (wrapInt64
               (msReading w (s.reads + 1) - msReading w s.reads))),
             Value.int64 r.ContentLength]),
       Effect.bodyClose r.Body] :=
  effectsOf_append _ _ _ _ _ _ _ (test_http_run_resp w s r err hget)

/-! ## Arithmetic lemmas -/

theorem tdiv_ms_of_nonneg (n : Int) (h : 0 ≤ n) :
    Int.tdiv n time_Millisecond = n / 1000000 :=
  Int.tdiv_eq_ediv h (by decide)

theorem tdiv_ms_of_neg (n : Int) (h : n < 0) :
    Int.tdiv n time_Millisecond = -((-n) / 1000000) := by
  have h1 : Int.tdiv (- -n) time_Millisecond = -(Int.tdiv (-n) time_Millisecond) :=
    Int.neg_tdiv (-n) time_Millisecond
  rw [neg_neg] at h1
  rw [h1, tdiv_ms_of_nonneg (-n) (by omega)]

theorem tdiv_ms_mono (a b : Int) (h : a ≤ b) :
    Int.tdiv a time_Millisecond ≤ Int.tdiv b time_Millisecond := by
  rcases lt_or_le a 0 with ha | ha <;> rcases lt_or_le b 0 with hb | hb
  · rw [tdiv_ms_of_neg a ha, tdiv_ms_of_neg b hb]; omega
  · rw [tdiv_ms_of_neg a ha, tdiv_ms_of_nonneg b hb]; omega
  · omega
  · rw [tdiv_ms_of_nonneg a ha, tdiv_ms_of_nonneg b hb]; omega

theorem tdiv_ms_range (n : Int) (h : isInt64 n) :
    -9223372036855 ≤ Int.tdiv n time_Millisecond ∧
      Int.tdiv n time_Millisecond ≤ 9223372036855 := by
  unfold isInt64 at h
  rcases lt_or_le n 0 with hn | hn
  · rw [tdiv_ms_of_neg n hn]; omega
  · rw [tdiv_ms_of_nonneg n hn]; omega

theorem wrapInt64_small (x : Int) (h : isInt64 x) : wrapInt64 x = x := by
  unfold isInt64 at h
  unfold wrapInt64
  omega

theorem float64OfInt_small (x : Int) (h : x.natAbs < 2 ^ 53) : float64OfInt x = x := by
  unfold float64OfInt
  exact if_pos h

theorem elapsed_exact (a b : Int) (ha : isInt64 a) (hb : isInt64 b) :
    float64OfInt (wrapInt64 (Int.tdiv b time_Millisecond - Int.tdiv a time_Millisecond)) =
      Int.tdiv b time_Millisecond - Int.tdiv a time_Millisecond := by
  have h1 := tdiv_ms_range a ha
  have h2 := tdiv_ms_range b hb
  rw [wrapInt64_small _ (by unfold isInt64; omega)]
  apply float64OfInt_small
  omega

/-! ## The published event -/

/-- C1, at a refused connection (`http.Get` returns a nil response and a
non-nil error): the invocation publishes no event at all, because it panics
at the `defer` statement, before the branch on the error. -/
theorem test_http_refused_publishes_nothing :
    published (effectsOf test_http
      (mkWorld 1700000000000000000 1700000000003000000 none
        (some ⟨"dial tcp 127.0.0.1:8080: connect: connection refused"⟩))
      State.init) = [] := by
  rfl

/-- C2, at a refused connection: the `request_failure` event carrying the
error's message is not among the effects of the invocation, which are the
first clock read and the GET only. -/
theorem test_http_refused_no_failure_event :
    effectsOf test_http
        (mkWorld 1700000000000000000 1700000000003000000 none
          (some ⟨"dial tcp 127.0.0.1:8080: connect: connection refused"⟩))
        State.init = [Effect.timeNow, Effect.httpGet targetURL] ∧
      Effect.publish
          [Value.str "request_failure", Value.str "demo", Value.str "http", Value.float64 0,
           Value.str "dial tcp 127.0.0.1:8080: connect: connection refused"] ∉
        [Effect.timeNow, Effect.httpGet targetURL] := by
  refine ⟨rfl, ?_⟩
  simp

/-- C3: when `http.Get` succeeds with response `r` and the two clock readings
are `int64` values, the only event published by the invocation is
`Publish("request_success", "demo", "http", end - start, r.ContentLength)`,
with `start` and `end` the values `now` returned before and after the call. -/
theorem test_http_success_event (w : World) (s : State) (r : Response)
    (hget : w.get targetURL = (some r, none))
    (h0 : isInt64 (w.clock s.reads)) (h1 : isInt64 (w.clock (s.reads + 1))) :
    published (effectsOf test_http w s) =
      [[Value.str "request_success", Value.str "demo", Value.str "http",
        Value.float64 (msReading w (s.reads + 1) - msReading w s.reads),
        Value.int64 r.ContentLength]] := by
  rw [effectsOf_test_http_resp w s r none hget]
  simp only [published, msReading]
  rw [elapsed_exact _ _ h0 h1]

theorem test_http_success_event_witness :
    isInt64 1700000000000000000 ∧ isInt64 1700000000005000000 ∧
      published (effectsOf test_http
        (mkWorld 1700000000000000000 1700000000005000000 (some ⟨200, 100, 1⟩) none)
        State.init) =
      [[Value.str "request_success", Value.str "demo", Value.str "http",
        Value.float64 5, Value.int64 100]] :=
  ⟨by decide, by decide,
   test_http_success_event
     (mkWorld 1700000000000000000 1700000000005000000 (some ⟨200, 100, 1⟩) none)
     State.init ⟨200, 100, 1⟩ rfl (by decide) (by decide)⟩

/-! ## The deferred release and the way the function ends -/

/-- C4, at a refused connection: no `Body.Close` is performed and no release
is even scheduled; the function does not return, it panics. -/
theorem test_http_refused_closes_nothing :
    closed (effectsOf test_http
        (mkWorld 1700000000000000000 1700000000003000000 none
          (some ⟨"dial tcp 127.0.0.1:8080: connect: connection refused"⟩))
        State.init) = [] ∧
      outcomeOf test_http
        (mkWorld 1700000000000000000 1700000000003000000 none
          (some ⟨"dial tcp 127.0.0.1:8080: connect: connection refused"⟩))
        State.init ≠ Outcome.ok () := by
  refine ⟨rfl, ?_⟩
  decide

/-- C5, at a refused connection: the invocation ends in a run-time panic (nil
pointer dereference), not in a normal return. -/
theorem test_http_refused_panics :
    outcomeOf test_http
        (mkWorld 1700000000000000000 1700000000003000000 none
          (some ⟨"dial tcp 127.0.0.1:8080: connect: connection refused"⟩))
        State.init =
      Outcome.panic "runtime error: invalid memory address or nil pointer dereference" := by
  rfl

/-! ## Sign of the measurement -/

/-- C6 fails when the wall clock is set back between the two readings: with
readings one millisecond apart in the wrong order and a successful GET, the
measurement of the published event is -1. -/
theorem test_http_success_negative_elapsed :
    isInt64 1700000000002000000 ∧ isInt64 1700000000001000000 ∧
      (published (effectsOf test_http
        (mkWorld 1700000000002000000 1700000000001000000 (some ⟨200, 100, 1⟩) none)
        State.init)).map measurement = [some (-1)] ∧
      ¬ (0 : Int) ≤ -1 := by
  refine ⟨by decide, by decide, rfl, by decide⟩

/-- C6 as amended: when `http.Get` succeeds and the second clock reading is
not smaller than the first (both `int64` values), the single published event
carries a measurement that is non-negative. -/
theorem test_http_success_elapsed_nonneg (w : World) (s : State) (r : Response)
    (hget : w.get targetURL = (some r, none))
    (h0 : isInt64 (w.clock s.reads)) (h1 : isInt64 (w.clock (s.reads + 1)))
    (hmono : w.clock s.reads ≤ w.clock (s.reads + 1)) :
    ∃ v : Int, (published (effectsOf test_http w s)).map measurement = [some v] ∧ 0 ≤ v := by
  refine ⟨msReading w (s.reads + 1) - msReading w s.reads, ?_, ?_⟩
  · rw [effectsOf_test_http_resp w s r none hget]
    simp only [published, msReading]
    rw [elapsed_exact _ _ h0 h1]
    rfl
  · have h := tdiv_ms_mono _ _ hmono
    unfold msReading
    omega

theorem test_http_success_elapsed_nonneg_witness :
    isInt64 1700000000000000000 ∧ isInt64 1700000000005999999 ∧
      (1700000000000000000 : Int) ≤ 1700000000005999999 ∧
      ∃ v : Int,
        (published (effectsOf test_http
          (mkWorld 1700000000000000000 1700000000005999999 (some ⟨200, 100, 1⟩) none)
          State.init)).map measurement = [some v] ∧ 0 ≤ v :=
  ⟨by decide, by decide, by decide,
   test_http_success_elapsed_nonneg
     (mkWorld 1700000000000000000 1700000000005999999 (some ⟨200, 100, 1⟩) none)
     State.init ⟨200, 100, 1⟩ rfl (by decide) (by decide) (by decide)⟩

/-! ## Startup -/

/-- C7: whatever the environment and the state it starts in, `main` returns
after exactly one effect, the call `boomer.Run(task)` with a task whose `Fn`
is `test_http`; it publishes nothing, issues no GET and reads no clock. -/
theorem main_single_startup_action (w : World) (s : State) :
    outcomeOf main w s = Outcome.ok () ∧
      effectsOf main w s = [Effect.boomerRun { Fn := FuncVal.test_http }] ∧
      FuncVal.call FuncVal.test_http = test_http ∧
      published (effectsOf main w s) = [] ∧
      (∀ url : String, Effect.httpGet url ∉ effectsOf main w s) ∧
      Effect.timeNow ∉ effectsOf main w s ∧
      (main w s).2.reads = s.reads := by
  have he : effectsOf main w s = [Effect.boomerRun { Fn := FuncVal.test_http }] := by
    simp [effectsOf, main_run]
  rw [he]
  refine ⟨rfl, rfl, rfl, rfl, ?_, ?_, rfl⟩
  · intro url
    simp
  · simp

/-! ## Order of the effects -/

/-- C8: when `http.Get` succeeds with response `r`, the effects of the
invocation are, in this order and nothing else: a clock read, the GET of
`http://localhost:8080/`, the scheduling of the release of `r.Body`, a clock
read, the `Publish` of the success event, and the `Body.Close` run at return.
The scheduling does not wait for the error value: the first three effects are
the same whatever error accompanies the response. -/
theorem test_http_success_trace (w : World) (s : State) (r : Response)
    (hget : w.get targetURL = (some r, none)) :
    outcomeOf test_http w s = Outcome.ok () ∧
      effectsOf test_http w s =
        [Effect.timeNow, Effect.httpGet "http://localhost:8080/",
         Effect.deferScheduled (Deferred.bodyClose r.Body), Effect.timeNow,
         Effect.publish
           [Value.str "request_success", Value.str "demo", Value.str "http",
            Value.float64 (float64OfInt (wrapInt64
              (msReading w (s.reads + 1) - msReading w s.reads))),
            Value.int64 r.ContentLength],
         Effect.bodyClose r.Body] ∧
      ∀ (w2 : World) (s2 : State) (err : Option GoError),
        w2.get targetURL = (some r, err) →
          (effectsOf test_http w2 s2).take 3 =
            [Effect.timeNow, Effect.httpGet "http://localhost:8080/",
             Effect.deferScheduled (Deferred.bodyClose r.Body)] := by
  refine ⟨?_, ?_, ?_⟩
  · simp [outcomeOf, test_http_run_resp w s r none hget]
  · rw [effectsOf_test_http_resp w s r none hget]
    rfl
  · intro w2 s2 err h2
    rw [effectsOf_test_http_resp w2 s2 r err h2]
    rfl

theorem test_http_success_trace_witness :
    outcomeOf test_http
        (mkWorld 1700000000000000000 1700000000005000000 (some ⟨200, 100, 7⟩) none)
        State.init = Outcome.ok () ∧
      effectsOf test_http
        (mkWorld 1700000000000000000 1700000000005000000 (some ⟨200, 100, 7⟩) none)
        State.init =
        [Effect.timeNow, Effect.httpGet "http://localhost:8080/",
         Effect.deferScheduled (Deferred.bodyClose 7), Effect.timeNow,
         Effect.publish
           [Value.str "request_success", Value.str "demo", Value.str "http",
            Value.float64 5, Value.int64 100],
         Effect.bodyClose 7] :=
  ⟨(test_http_success_trace
      (mkWorld 1700000000000000000 1700000000005000000 (some ⟨200, 100, 7⟩) none)
      State.init ⟨200, 100, 7⟩ rfl).1,
   (test_http_success_trace
      (mkWorld 1700000000000000000 1700000000005000000 (some ⟨200, 100, 7⟩) none)
      State.init ⟨200, 100, 7⟩ rfl).2.1⟩

/-! ## Independence from the status code -/

/-- C9: two invocations in which `http.Get` returns a nil error, the clock
gives the same two readings and the responses have the same `ContentLength`
publish the same events, each a single `request_success`, whatever the status
codes of the two responses. -/
theorem test_http_event_ignores_status (w1 w2 : World) (s1 s2 : State) (r1 r2 : Response)
    (hget1 : w1.get targetURL = (some r1, none))
    (hget2 : w2.get targetURL = (some r2, none))
    (hlen : r1.ContentLength = r2.ContentLength)
    (hstart : w1.clock s1.reads = w2.clock s2.reads)
    (hend : w1.clock (s1.reads + 1) = w2.clock (s2.reads + 1)) :
    published (effectsOf test_http w1 s1) = published (effectsOf test_http w2 s2) ∧
      ∃ rest : List Value,
        published (effectsOf test_http w1 s1) = [Value.str "request_success" :: rest] ∧
        published (effectsOf test_http w2 s2) = [Value.str "request_success" :: rest] := by
  rw [effectsOf_test_http_resp w1 s1 r1 none hget1,
    effectsOf_test_http_resp w2 s2 r2 none hget2]
  simp only [published, msReading, hlen, hstart, hend]
  exact ⟨trivial, _, rfl, rfl⟩

theorem test_http_event_ignores_status_witness :
    (200 : Int) ≠ 500 ∧
      published (effectsOf test_http
        (mkWorld 1700000000000000000 1700000000005000000 (some ⟨200, 100, 1⟩) none)
        State.init) =
      published (effectsOf test_http
        (mkWorld 1700000000000000000 1700000000005000000 (some ⟨500, 100, 2⟩) none)
        State.init) :=
  ⟨by decide,
   (test_http_event_ignores_status
      (mkWorld 1700000000000000000 1700000000005000000 (some ⟨200, 100, 1⟩) none)
      (mkWorld 1700000000000000000 1700000000005000000 (some ⟨500, 100, 2⟩) none)
      State.init State.init ⟨200, 100, 1⟩ ⟨500, 100, 2⟩ rfl rfl rfl rfl rfl).1⟩

/-! ## The clock conversion -/

/-- C10: `now` returns the clock's nanosecond reading divided by 1000000,
truncated. For a reading `n ≥ 0` the result `m` satisfies
`m * 1000000 ≤ n < (m + 1) * 1000000`; and the conversion is monotone: a
reading `n1 ≤ n2` gives a result that is not larger, so the difference of the
two results is non-negative. -/
theorem now_millis (w w1 w2 : World) (s s1 s2 : State)
    (hn : 0 ≤ w.clock s.reads)
    (hle : w1.clock s1.reads ≤ w2.clock s2.reads) :
    ∃ m m1 m2 : Int,
      outcomeOf now w s = Outcome.ok m ∧
      outcomeOf now w1 s1 = Outcome.ok m1 ∧
      outcomeOf now w2 s2 = Outcome.ok m2 ∧
      effectsOf now w s = [Effect.timeNow] ∧
      m1 = Int.tdiv (w1.clock s1.reads) 1000000 ∧
      m2 = Int.tdiv (w2.clock s2.reads) 1000000 ∧
      m = w.clock s.reads / 1000000 ∧
      m * 1000000 ≤ w.clock s.reads ∧ w.clock s.reads < (m + 1) * 1000000 ∧
      m1 ≤ m2 ∧ 0 ≤ m2 - m1 := by
  refine ⟨msReading w s.reads, msReading w1 s1.reads, msReading w2 s2.reads, ?_, ?_, ?_, ?_,
    rfl, rfl, ?_, ?_, ?_, ?_, ?_⟩
  · simp [outcomeOf, now_run]
  · simp [outcomeOf, now_run]
  · simp [outcomeOf, now_run]
  · simp [effectsOf, now_run]
  · exact tdiv_ms_of_nonneg _ hn
  · rw [show msReading w s.reads = w.clock s.reads / 1000000 from tdiv_ms_of_nonneg _ hn]
    omega
  · rw [show msReading w s.reads = w.clock s.reads / 1000000 from tdiv_ms_of_nonneg _ hn]
    omega
  · exact tdiv_ms_mono _ _ hle
  · have h := tdiv_ms_mono _ _ hle
    unfold msReading
    omega

theorem now_millis_witness :
    (0 : Int) ≤ 1700000000005999999 ∧ (-1999999 : Int) ≤ 1700000000005999999 ∧
      ∃ m m1 m2 : Int,
        outcomeOf now (mkWorld 1700000000005999999 0 none none) State.init = Outcome.ok m ∧
        outcomeOf now (mkWorld (-1999999) 0 none none) State.init = Outcome.ok m1 ∧
        outcomeOf now (mkWorld 1700000000005999999 0 none none) State.init = Outcome.ok m2 ∧
        effectsOf now (mkWorld 1700000000005999999 0 none none) State.init =
          [Effect.timeNow] ∧
        m1 = Int.tdiv (-1999999) 1000000 ∧
        m2 = Int.tdiv 1700000000005999999 1000000 ∧
        m = 1700000000005999999 / 1000000 ∧
        m * 1000000 ≤ 1700000000005999999 ∧ 1700000000005999999 < (m + 1) * 1000000 ∧
        m1 ≤ m2 ∧ 0 ≤ m2 - m1 :=
  ⟨by decide, by decide,
   now_millis (mkWorld 1700000000005999999 0 none none) (mkWorld (-1999999) 0 none none)
     (mkWorld 1700000000005999999 0 none none) State.init State.init State.init
     (by decide) (by decide)⟩

end HttpGet
